import Mathlib

/-!
Formal model of `src/image_to_latex/trainers/base_trainer.py`.

The trainer orchestrates an epoch loop: each epoch produces an average
validation loss, `_early_stopping` updates the best-loss tracker, the
no-improvement counter and (when enabled) the in-memory checkpoint, and
tells `fit` whether to break out of the loop.

Modelling conventions:
- losses are rationals (`ℚ`), abstracting Python floats;
- `best_val_loss` is `Option ℚ`, with `none` standing for the initial
  Python value `float("inf")` (every finite loss compares strictly below it);
- `no_improve_count` is a `Nat`: the source initialises it to 0 and only
  ever resets it to 0 or increments it, so it is always a natural number;
- `patience` and `max_epochs` are `Int` (arbitrary Python ints from the
  config dict; in particular `patience = -1` must be representable);
- the model weights are an abstract type `W`; `self.model.state_dict()`
  is modelled as the current value of the `model` field;
- the per-epoch validation losses that `fit` would compute from the data
  are abstracted as an oracle `valLoss : Nat → ℚ` indexed by epoch number,
  and the per-batch losses of one phase as a `List ℚ`.
-/

namespace BaseTrainerModel

/-- Module-level default `MAX_EPOCHS = 100` (base_trainer.py line 17). -/
def MAX_EPOCHS : Int := 100

/-- Module-level default `PATIENCE = 10` (line 18). -/
def PATIENCE : Int := 10

/-- Module-level default `LR = 1e-4` (line 19). -/
def LR : ℚ := 1 / 10000

/-- Module-level default `MAX_LR = 1e-2` (line 20). -/
def MAX_LR : ℚ := 1 / 100

/-- Module-level default `SAVE_BEST_MODEL = False` (line 21). -/
def SAVE_BEST_MODEL : Bool := false

/-- Module-level default `USE_SCHEDULER = False` (line 22). -/
def USE_SCHEDULER : Bool := false

/-- Module-level constant `CHECKPOINT_FILENAME = "best.pth"` (line 24).
Declared in the source but never read anywhere in base_trainer.py:
no function of the module writes a checkpoint file to disk. -/
def CHECKPOINT_FILENAME : String := "best.pth"

/-- The configuration dictionary passed to `BaseTrainer.__init__`,
restricted to the six keys the constructor reads with `config.get`;
a `none` field models an absent key. -/
structure ConfigDict where
  maxEpochsOpt : Option Int
  patienceOpt : Option Int
  lrOpt : Option ℚ
  maxLrOpt : Option ℚ
  saveBestModelOpt : Option Bool
  useSchedulerOpt : Option Bool
deriving DecidableEq

/-- The mutable state of a `BaseTrainer` instance, over an abstract type
`W` of model weight snapshots (state dicts). -/
structure Trainer (W : Type) where
  max_epochs : Int
  patience : Int
  lr : ℚ
  max_lr : ℚ
  save_best_model : Bool
  use_scheduler : Bool
  start_epoch : Int
  best_val_loss : Option ℚ
  no_improve_count : Nat
  model : W
  checkpoint : Option W
deriving DecidableEq

/-- The comparison `current_val_loss < self.best_val_loss` (line 234),
where `none` models the initial `float("inf")`: every loss is strictly
below infinity. -/
def ltInf (x : ℚ) (best : Option ℚ) : Bool :=
  match best with
  | none => true
  | some b => decide (x < b)

/-- `BaseTrainer.__init__` (lines 66-76): read the six hyperparameters
from the config dict with module defaults, set `start_epoch = 1`,
`best_val_loss = float("inf")`, `no_improve_count = 0`; the `checkpoint`
attribute starts unassigned, modelled as `none`. -/
def initTrainer {W : Type} (config : ConfigDict) (model : W) : Trainer W :=
  { max_epochs := config.maxEpochsOpt.getD MAX_EPOCHS
    patience := config.patienceOpt.getD PATIENCE
    lr := config.lrOpt.getD LR
    max_lr := config.maxLrOpt.getD MAX_LR
    save_best_model := config.saveBestModelOpt.getD SAVE_BEST_MODEL
    use_scheduler := config.useSchedulerOpt.getD USE_SCHEDULER
    start_epoch := 1
    best_val_loss := none
    no_improve_count := 0
    model := model
    checkpoint := none }

/-- The dictionary returned by `BaseTrainer.config` (lines 86-95), in the
order the source lists the keys: max-epochs, patience, lr, max-lr,
use-scheduler, save-best-model. -/
structure ConfigOut where
  max_epochs : Int
  patience : Int
  lr : ℚ
  max_lr : ℚ
  use_scheduler : Bool
  save_best_model : Bool
deriving DecidableEq

/-- `BaseTrainer.config` (lines 86-95). -/
def Trainer.config {W : Type} (t : Trainer W) : ConfigOut :=
  { max_epochs := t.max_epochs
    patience := t.patience
    lr := t.lr
    max_lr := t.max_lr
    use_scheduler := t.use_scheduler
    save_best_model := t.save_best_model }

/-- `BaseTrainer._save_checkpoint` (lines 244-248): do nothing unless
`save_best_model` is set, else store the current state dict in the
in-memory `checkpoint` attribute. -/
def saveCheckpoint {W : Type} (t : Trainer W) : Trainer W :=
  if t.save_best_model = false then t
  else { t with checkpoint := some t.model }

/-- `BaseTrainer._early_stopping` (lines 232-242): on strict improvement
record the new best loss, reset the counter and call `_save_checkpoint`;
otherwise increment the counter and return `True` exactly when it equals
`patience`. Returns the Python boolean and the updated trainer state. -/
def earlyStopping {W : Type} (t : Trainer W) (current_val_loss : ℚ) : Bool × Trainer W :=
  if ltInf current_val_loss t.best_val_loss then
    (false, saveCheckpoint
      { t with best_val_loss := some current_val_loss, no_improve_count := 0 })
  else
    let t1 : Trainer W := { t with no_improve_count := t.no_improve_count + 1 }
    if (t1.no_improve_count : Int) = t1.patience then (true, t1) else (false, t1)

/-- The state after calling `_early_stopping` once on each loss of a list
in order, regardless of the returned booleans. -/
def earlyStoppingFold {W : Type} (t : Trainer W) (losses : List ℚ) : Trainer W :=
  losses.foldl (fun s l => (earlyStopping s l).2) t

/-- The list of booleans successive calls to `_early_stopping` return, one
per loss, each call made on the state the previous call produced. -/
def earlyStopResults {W : Type} : Trainer W → List ℚ → List Bool
  | _, [] => []
  | t, l :: ls =>
    (earlyStopping t l).1 :: earlyStopResults (earlyStopping t l).2 ls

/-- Outcome of the epoch loop of `fit`: how many epochs ran, whether the
loop ended through the early-stopping `break`, and the final state. -/
structure FitResult (W : Type) where
  epochsRun : Nat
  stoppedEarly : Bool
  final : Trainer W
deriving DecidableEq

/-- The epoch loop of `fit` (lines 129-169) over a list of per-epoch
average validation losses: each iteration calls `_early_stopping` on that
epoch's loss and breaks when it returns `True`. -/
def fitLoop {W : Type} : Trainer W → List ℚ → FitResult W
  | t, [] => ⟨0, false, t⟩
  | t, l :: ls =>
    if (earlyStopping t l).1 then ⟨1, true, (earlyStopping t l).2⟩
    else
      ⟨(fitLoop (earlyStopping t l).2 ls).epochsRun + 1,
        (fitLoop (earlyStopping t l).2 ls).stoppedEarly,
        (fitLoop (earlyStopping t l).2 ls).final⟩

/-- Number of iterations of `for epoch in range(self.start_epoch,
self.max_epochs + 1)` (line 129): `max(0, max_epochs + 1 - start_epoch)`. -/
def numEpochs {W : Type} (t : Trainer W) : Nat :=
  (t.max_epochs + 1 - t.start_epoch).toNat

/-- `BaseTrainer.fit` (lines 97-169), with the loss each epoch would
compute from the data abstracted as the oracle `valLoss`: epoch `i + 1`
of the range produces average validation loss `valLoss (i + 1)`. -/
def fit {W : Type} (t : Trainer W) (valLoss : Nat → ℚ) : FitResult W :=
  fitLoop t ((List.range (numEpochs t)).map (fun i => valLoss (i + 1)))

/-- The learning rate `fit` passes to the Adam constructor: hard-coded
`1e-6` at line 104, independent of the `lr` attribute. -/
def fitAdamLr {W : Type} (_t : Trainer W) : ℚ := 1 / 1000000

/-- Spec-side running minimum: `minInf best l` is the minimum of `best`
and `l`, where `none` is positive infinity. -/
def minInf (best : Option ℚ) (l : ℚ) : Option ℚ :=
  match best with
  | none => some l
  | some b => some (min b l)

/-- Spec-side streak count. Given the minimum `best` of the losses seen
before and the current streak `streak` of consecutive non-improving
epochs, `nonImproveStreaks best streak losses` lists, for each successive
loss, the length of the run of consecutive epochs ending at it that
failed to strictly improve on the minimum loss seen so far (0 at a
strictly improving epoch). -/
def nonImproveStreaks (best : Option ℚ) (streak : Nat) : List ℚ → List Nat
  | [] => []
  | l :: ls =>
    if ltInf l best then 0 :: nonImproveStreaks (some l) 0 ls
    else (streak + 1) :: nonImproveStreaks best (streak + 1) ls

/-- Replace the `lr` attribute, leaving every other field unchanged. -/
def Trainer.setLr {W : Type} (t : Trainer W) (x : ℚ) : Trainer W :=
  { t with lr := x }

/-- The per-phase loss accumulation of one epoch (lines 133-151):
`total_loss` starts at 0.0, each batch of the phase adds its `loss.item()`,
and the reported per-phase loss is `total_loss / len(data_loaders[phase])`,
the dataloader length being the number of batches it yields. -/
def phaseAvgLoss (batchLosses : List ℚ) : ℚ :=
  (batchLosses.foldl (fun total l => total + l) 0) / (batchLosses.length : ℚ)

/-- The `avg_loss` dict one epoch reports (line 130 and line 151), for the
train and the val phase. -/
def epochAvgLoss (trainBatchLosses valBatchLosses : List ℚ) : ℚ × ℚ :=
  (phaseAvgLoss trainBatchLosses, phaseAvgLoss valBatchLosses)

/-- On strict improvement, `_early_stopping` returns `False` and the state
records the new best loss, a reset counter, and the checkpoint update. -/
theorem earlyStopping_improve {W : Type} (t : Trainer W) (l : ℚ)
    (h : ltInf l t.best_val_loss = true) :
    earlyStopping t l =
      (false, saveCheckpoint
        { t with best_val_loss := some l, no_improve_count := 0 }) := by
  simp [earlyStopping, h]

/-- On a non-improving call, `_early_stopping` increments the counter and
returns `True` exactly when the new counter equals `patience`. -/
theorem earlyStopping_noImprove {W : Type} (t : Trainer W) (l : ℚ)
    (h : ltInf l t.best_val_loss = false) :
    earlyStopping t l =
      (decide (((t.no_improve_count + 1 : Nat) : Int) = t.patience),
        { t with no_improve_count := t.no_improve_count + 1 }) := by
  simp only [earlyStopping, h, Bool.false_eq_true, if_false]
  split
  · rename_i hc
    rw [decide_eq_true hc]
  · rename_i hc
    rw [decide_eq_false hc]

/-- `_save_checkpoint` touches only the `checkpoint` attribute. -/
theorem saveCheckpoint_best_val_loss {W : Type} (t : Trainer W) :
    (saveCheckpoint t).best_val_loss = t.best_val_loss := by
  unfold saveCheckpoint
  split <;> rfl

theorem saveCheckpoint_no_improve_count {W : Type} (t : Trainer W) :
    (saveCheckpoint t).no_improve_count = t.no_improve_count := by
  unfold saveCheckpoint
  split <;> rfl

theorem saveCheckpoint_patience {W : Type} (t : Trainer W) :
    (saveCheckpoint t).patience = t.patience := by
  unfold saveCheckpoint
  split <;> rfl

/-- `_early_stopping` never changes the `patience` attribute. -/
theorem earlyStopping_snd_patience {W : Type} (t : Trainer W) (l : ℚ) :
    (earlyStopping t l).2.patience = t.patience := by
  by_cases h : ltInf l t.best_val_loss
  · rw [earlyStopping_improve t l h]
    simp [saveCheckpoint_patience]
  · rw [earlyStopping_noImprove t l (by simp [h])]

/-- Main characterisation of the early-stopping booleans: from any state
whose patience is at least 1, the booleans successive `_early_stopping`
calls return mark exactly the positions where the consecutive
non-improvement streak equals `patience`. -/
theorem earlyStopResults_eq_streaks {W : Type} (losses : List ℚ) (t : Trainer W)
    (hp : 1 ≤ t.patience) :
    earlyStopResults t losses =
      (nonImproveStreaks t.best_val_loss t.no_improve_count losses).map
        (fun k : Nat => decide ((k : Int) = t.patience)) := by
  induction losses generalizing t with
  | nil => rfl
  | cons l ls ih =>
    cases hb : ltInf l t.best_val_loss with
    | true =>
      have hih := ih (saveCheckpoint { t with best_val_loss := some l, no_improve_count := 0 })
        (by rw [saveCheckpoint_patience]; exact hp)
      simp only [saveCheckpoint_patience, saveCheckpoint_best_val_loss,
        saveCheckpoint_no_improve_count] at hih
      rw [earlyStopResults, earlyStopping_improve t l hb, nonImproveStreaks, if_pos hb,
        List.map_cons]
      have h0 : ¬ (((0 : Nat) : Int) = t.patience) := by omega
      simp only [hih]
      rw [decide_eq_false h0]
    | false =>
      have hih := ih ({ t with no_improve_count := t.no_improve_count + 1 }) hp
      rw [earlyStopResults, earlyStopping_noImprove t l hb, nonImproveStreaks,
        if_neg (by rw [hb]; exact Bool.false_ne_true), List.map_cons]
      simp only [hih]

/-- The loop of `fit` ends through the break exactly when some call of
`_early_stopping` along the list returns `True`. -/
theorem fitLoop_stoppedEarly {W : Type} (losses : List ℚ) (t : Trainer W) :
    (fitLoop t losses).stoppedEarly = (earlyStopResults t losses).any (fun b => b) := by
  induction losses generalizing t with
  | nil => rfl
  | cons l ls ih =>
    rw [fitLoop, earlyStopResults]
    cases hb : (earlyStopping t l).1 with
    | true => simp [hb]
    | false => simp [hb, ih]

/-- The loop of `fit` runs at most as many iterations as there are epochs
in the range, and runs them all unless the break fires. -/
theorem fitLoop_length {W : Type} (losses : List ℚ) (t : Trainer W) :
    (fitLoop t losses).epochsRun ≤ losses.length ∧
      ((fitLoop t losses).stoppedEarly = true ∨
        (fitLoop t losses).epochsRun = losses.length) := by
  induction losses generalizing t with
  | nil => simp [fitLoop]
  | cons l ls ih =>
    rw [fitLoop]
    cases hb : (earlyStopping t l).1 with
    | true =>
      simp only [if_pos rfl]
      exact ⟨by simp, Or.inl rfl⟩
    | false =>
      simp only [Bool.false_eq_true, if_false]
      refine ⟨Nat.succ_le_succ (ih _).1, ?_⟩
      rcases (ih (earlyStopping t l).2).2 with h | h
      · exact Or.inl h
      · exact Or.inr (by rw [List.length_cons, h])

/-- With nonpositive patience the incremented counter, at least 1, never
equals `patience`, so `_early_stopping` cannot return `True`. -/
theorem earlyStopping_fst_of_patience_nonpos {W : Type} (t : Trainer W) (l : ℚ)
    (hp : t.patience ≤ 0) : (earlyStopping t l).1 = false := by
  cases hb : ltInf l t.best_val_loss with
  | true => rw [earlyStopping_improve t l hb]
  | false =>
    rw [earlyStopping_noImprove t l hb]
    exact decide_eq_false (by omega)

/-- With nonpositive patience the loop of `fit` never breaks and runs one
iteration per epoch of the range. -/
theorem fitLoop_patience_nonpos {W : Type} (losses : List ℚ) (t : Trainer W)
    (hp : t.patience ≤ 0) :
    (fitLoop t losses).stoppedEarly = false ∧
      (fitLoop t losses).epochsRun = losses.length := by
  induction losses generalizing t with
  | nil => exact ⟨rfl, rfl⟩
  | cons l ls ih =>
    have hf := earlyStopping_fst_of_patience_nonpos t l hp
    have hih := ih (earlyStopping t l).2 (by rw [earlyStopping_snd_patience]; exact hp)
    rw [fitLoop, if_neg (by rw [hf]; exact Bool.false_ne_true)]
    refine ⟨hih.1, ?_⟩
    show (fitLoop (earlyStopping t l).2 ls).epochsRun + 1 = (l :: ls).length
    rw [List.length_cons, hih.2]

/-- For a freshly constructed trainer, `start_epoch = 1`, so the range of
the epoch loop has `max(0, max_epochs)` entries. -/
theorem numEpochs_initTrainer {W : Type} (cfg : ConfigDict) (m : W) :
    numEpochs (initTrainer cfg m) = ((initTrainer cfg m).max_epochs).toNat := by
  show (((initTrainer cfg m).max_epochs) + 1 - (initTrainer cfg m).start_epoch).toNat = _
  have h1 : (initTrainer cfg m).start_epoch = 1 := rfl
  rw [h1]
  omega

/-- One `_early_stopping` call updates `best_val_loss` to the minimum of
the old best and the current loss. -/
theorem earlyStopping_best_val_loss {W : Type} (t : Trainer W) (l : ℚ) :
    (earlyStopping t l).2.best_val_loss = minInf t.best_val_loss l := by
  cases hb : ltInf l t.best_val_loss with
  | true =>
    rw [earlyStopping_improve t l hb]
    show (saveCheckpoint _).best_val_loss = _
    rw [saveCheckpoint_best_val_loss]
    cases hbv : t.best_val_loss with
    | none => rfl
    | some b =>
      rw [hbv] at hb
      have hlt : l < b := of_decide_eq_true hb
      show some l = some (min b l)
      rw [min_eq_right (le_of_lt hlt)]
  | false =>
    rw [earlyStopping_noImprove t l hb]
    show t.best_val_loss = minInf t.best_val_loss l
    cases hbv : t.best_val_loss with
    | none =>
      rw [hbv] at hb
      simp [ltInf] at hb
    | some b =>
      rw [hbv] at hb
      have hge : ¬ (l < b) := of_decide_eq_false hb
      show some b = some (min b l)
      rw [min_eq_left (le_of_not_lt hge)]

/-- Folding `_early_stopping` over a loss list folds `minInf` over the
`best_val_loss` attribute. -/
theorem earlyStoppingFold_best_val_loss {W : Type} (losses : List ℚ) (t : Trainer W) :
    (earlyStoppingFold t losses).best_val_loss = losses.foldl minInf t.best_val_loss := by
  induction losses generalizing t with
  | nil => rfl
  | cons l ls ih =>
    show (earlyStoppingFold (earlyStopping t l).2 ls).best_val_loss =
      List.foldl minInf (minInf t.best_val_loss l) ls
    rw [ih, earlyStopping_best_val_loss]

/-- `_save_checkpoint` stores the state dict exactly when the flag is on. -/
theorem saveCheckpoint_checkpoint {W : Type} (t : Trainer W) :
    (saveCheckpoint t).checkpoint =
      if t.save_best_model then some t.model else t.checkpoint := by
  unfold saveCheckpoint
  cases hsb : t.save_best_model <;> simp [hsb]

/-- Exact characterisation of when one `_early_stopping` call changes the
`checkpoint` attribute. -/
theorem earlyStopping_checkpoint {W : Type} (t : Trainer W) (l : ℚ) :
    (earlyStopping t l).2.checkpoint =
      if t.save_best_model && ltInf l t.best_val_loss then some t.model
      else t.checkpoint := by
  cases hb : ltInf l t.best_val_loss with
  | false =>
    rw [earlyStopping_noImprove t l hb]
    simp [hb]
  | true =>
    rw [earlyStopping_improve t l hb]
    show (saveCheckpoint _).checkpoint = _
    rw [saveCheckpoint_checkpoint]
    simp [hb]

/-- `_save_checkpoint` commutes with replacing the unread `lr` field. -/
theorem saveCheckpoint_setLr {W : Type} (t : Trainer W) (x : ℚ) :
    saveCheckpoint (t.setLr x) = (saveCheckpoint t).setLr x := by
  cases hsb : t.save_best_model <;>
    simp [saveCheckpoint, Trainer.setLr, hsb]

/-- `_early_stopping` neither reads nor writes the `lr` field. -/
theorem earlyStopping_setLr {W : Type} (t : Trainer W) (l x : ℚ) :
    earlyStopping (t.setLr x) l =
      ((earlyStopping t l).1, (earlyStopping t l).2.setLr x) := by
  cases hb : ltInf l t.best_val_loss with
  | true =>
    rw [earlyStopping_improve (t.setLr x) l hb, earlyStopping_improve t l hb]
    exact congrArg (Prod.mk false)
      (saveCheckpoint_setLr { t with best_val_loss := some l, no_improve_count := 0 } x)
  | false =>
    rw [earlyStopping_noImprove (t.setLr x) l hb, earlyStopping_noImprove t l hb]
    rfl

/-- The whole epoch loop neither reads nor writes the `lr` field. -/
theorem fitLoop_setLr {W : Type} (losses : List ℚ) (t : Trainer W) (x : ℚ) :
    fitLoop (t.setLr x) losses =
      ⟨(fitLoop t losses).epochsRun, (fitLoop t losses).stoppedEarly,
        ((fitLoop t losses).final).setLr x⟩ := by
  induction losses generalizing t with
  | nil => rfl
  | cons l ls ih =>
    rw [fitLoop, fitLoop, earlyStopping_setLr]
    cases hb : (earlyStopping t l).1 with
    | true => simp [hb]
    | false => simp [hb, ih]

/-- `fit` neither reads nor writes the `lr` field. -/
theorem fit_setLr {W : Type} (t : Trainer W) (x : ℚ) (valLoss : Nat → ℚ) :
    fit (t.setLr x) valLoss =
      ⟨(fit t valLoss).epochsRun, (fit t valLoss).stoppedEarly,
        ((fit t valLoss).final).setLr x⟩ := by
  rw [fit, fit]
  exact fitLoop_setLr _ _ _

/-- Folding addition from an accumulator adds the sum of the list. -/
theorem foldl_add_eq_sum (ls : List ℚ) (a : ℚ) :
    ls.foldl (fun total l => total + l) a = a + ls.sum := by
  induction ls generalizing a with
  | nil => simp
  | cons l ls ih =>
    rw [List.foldl_cons, ih, List.sum_cons]
    ring

/-- C1: for every patience at least 1 and every sequence of per-epoch
average validation losses, the booleans `_early_stopping` returns, called
from the freshly constructed trainer on each loss in order, are `True`
precisely at the positions where the run of consecutive epochs failing to
strictly improve on the minimum loss seen so far (counted since the last
strict improvement, or since the start) has length exactly `patience`;
consequently `fit` stops early exactly when some epoch reaches such a
streak. -/
theorem fit_early_stops_exactly_at_patience {W : Type} (cfg : ConfigDict) (m : W)
    (losses : List ℚ) (valLoss : Nat → ℚ)
    (hp : 1 ≤ (initTrainer cfg m).patience) :
    earlyStopResults (initTrainer cfg m) losses =
      (nonImproveStreaks none 0 losses).map
        (fun k : Nat => decide ((k : Int) = (initTrainer cfg m).patience)) ∧
    (fit (initTrainer cfg m) valLoss).stoppedEarly =
      ((nonImproveStreaks none 0
          ((List.range (numEpochs (initTrainer cfg m))).map (fun i => valLoss (i + 1)))).map
        (fun k : Nat => decide ((k : Int) = (initTrainer cfg m).patience))).any
          (fun b => b) := by
  constructor
  · exact earlyStopResults_eq_streaks losses _ hp
  · rw [fit, fitLoop_stoppedEarly, earlyStopResults_eq_streaks _ _ hp]
    rfl

/-- Witness for C1: with patience 2, losses 5, 6, 7 give one improvement
and then two non-improving epochs, so the third call returns `True`. -/
theorem fit_early_stops_exactly_at_patience_witness :
    earlyStopResults (initTrainer ⟨none, some 2, none, none, none, none⟩ (0 : Nat)) [5, 6, 7]
      = [false, false, true] :=
  (fit_early_stops_exactly_at_patience ⟨none, some 2, none, none, none, none⟩ (0 : Nat)
      [5, 6, 7] (fun _ => 6) (by decide)).1.trans (by decide)

/-- C2 counterexample: with the default configuration (save-best-model
absent, hence `False`), the very first epoch strictly improves on the
initial infinite best loss, yet `_early_stopping` leaves the checkpoint
attribute empty: no snapshot is stored, and nothing in base_trainer.py
ever writes a checkpoint file. -/
theorem checkpoint_not_persisted_on_improvement_cex :
    ltInf 1 (initTrainer ⟨none, none, none, none, none, none⟩ (0 : Nat)).best_val_loss = true ∧
    (earlyStopping (initTrainer ⟨none, none, none, none, none, none⟩ (0 : Nat)) 1).2.checkpoint
      = none := by
  decide

/-- C2 as amended: when `save_best_model` is enabled, every epoch whose
average validation loss strictly improves on the best seen so far makes
`_early_stopping` store a snapshot of the model state dict in the
in-memory `checkpoint` attribute. -/
theorem checkpoint_snapshot_on_improvement_when_enabled {W : Type} (t : Trainer W) (l : ℚ)
    (hs : t.save_best_model = true) (hi : ltInf l t.best_val_loss = true) :
    (earlyStopping t l).2.checkpoint = some t.model := by
  rw [earlyStopping_checkpoint, hs, hi]
  rfl

/-- Witness for the amended C2: with save-best-model on, the improving
first epoch snapshots the model weights (here the weight value 7). -/
theorem checkpoint_snapshot_on_improvement_when_enabled_witness :
    (initTrainer ⟨none, none, none, none, some true, none⟩ (7 : Nat)).save_best_model = true ∧
    (earlyStopping (initTrainer ⟨none, none, none, none, some true, none⟩ (7 : Nat)) 1).2.checkpoint
      = some 7 :=
  ⟨by decide,
    checkpoint_snapshot_on_improvement_when_enabled _ 1 (by decide) (by decide)⟩

/-- C3: one `_early_stopping` call updates the checkpoint to the current
model state dict exactly when `save_best_model` is enabled and the current
validation loss is strictly below `best_val_loss`; on any non-improving
call, or with the flag disabled, the checkpoint is left unchanged. -/
theorem checkpoint_update_iff_enabled_and_improving {W : Type} (t : Trainer W) (l : ℚ) :
    (earlyStopping t l).2.checkpoint =
      if t.save_best_model && ltInf l t.best_val_loss then some t.model
      else t.checkpoint :=
  earlyStopping_checkpoint t l

/-- C4: with patience -1 early stopping is disabled: `_early_stopping`
never returns `True`, so `fit` never breaks early and runs one iteration
per epoch of the range up to `max_epochs`. -/
theorem patience_neg_one_disables_early_stopping {W : Type} (t : Trainer W)
    (valLoss : Nat → ℚ) (hp : t.patience = -1) :
    (∀ l : ℚ, (earlyStopping t l).1 = false) ∧
    (fit t valLoss).stoppedEarly = false ∧
    (fit t valLoss).epochsRun = numEpochs t := by
  have hp0 : t.patience ≤ 0 := by omega
  refine ⟨fun l => earlyStopping_fst_of_patience_nonpos t l hp0, ?_, ?_⟩
  · rw [fit]
    exact (fitLoop_patience_nonpos _ _ hp0).1
  · rw [fit, (fitLoop_patience_nonpos _ _ hp0).2]
    simp

/-- Witness for C4: patience -1 and max-epochs 3 run all three epochs. -/
theorem patience_neg_one_disables_early_stopping_witness :
    (initTrainer ⟨some 3, some (-1), none, none, none, none⟩ (0 : Nat)).patience = -1 ∧
    (fit (initTrainer ⟨some 3, some (-1), none, none, none, none⟩ (0 : Nat))
      (fun _ => 5)).epochsRun = 3 :=
  ⟨by decide,
    ((patience_neg_one_disables_early_stopping _ (fun _ => 5) (by decide)).2.2).trans
      (by decide)⟩

/-- C5: after any sequence of `_early_stopping` calls on a freshly
constructed trainer, `best_val_loss` equals the minimum of its initial
value (positive infinity, modelled as `none`) and all the validation
losses passed in so far. -/
theorem best_val_loss_is_running_min {W : Type} (cfg : ConfigDict) (m : W)
    (losses : List ℚ) :
    (earlyStoppingFold (initTrainer cfg m) losses).best_val_loss =
      losses.foldl minInf none :=
  earlyStoppingFold_best_val_loss losses _

/-- C6: the epoch loop of `fit` terminates after at most `max_epochs`
iterations (the range starts at `start_epoch = 1`), and it runs exactly
that many iterations unless the early-stopping break ends it sooner. -/
theorem fit_terminates_within_max_epochs {W : Type} (cfg : ConfigDict) (m : W)
    (valLoss : Nat → ℚ) :
    (fit (initTrainer cfg m) valLoss).epochsRun ≤ ((initTrainer cfg m).max_epochs).toNat ∧
    ((fit (initTrainer cfg m) valLoss).stoppedEarly = true ∨
      (fit (initTrainer cfg m) valLoss).epochsRun = ((initTrainer cfg m).max_epochs).toNat) := by
  rw [fit, numEpochs_initTrainer]
  have h := fitLoop_length
    ((List.range (((initTrainer cfg m).max_epochs).toNat)).map (fun i => valLoss (i + 1)))
    (initTrainer cfg m)
  simp only [List.length_map, List.length_range] at h
  exact h

/-- C7: for non-empty train and validation dataloaders, the loss each
epoch reports for a phase is the arithmetic mean of that phase's
per-batch losses: their sum divided by the number of batches. -/
theorem phase_loss_is_arithmetic_mean (trainBatchLosses valBatchLosses : List ℚ)
    (_ht : trainBatchLosses ≠ []) (_hv : valBatchLosses ≠ []) :
    epochAvgLoss trainBatchLosses valBatchLosses =
      (trainBatchLosses.sum / (trainBatchLosses.length : ℚ),
        valBatchLosses.sum / (valBatchLosses.length : ℚ)) := by
  rw [epochAvgLoss, phaseAvgLoss, phaseAvgLoss, foldl_add_eq_sum, foldl_add_eq_sum,
    zero_add, zero_add]

/-- Witness for C7: batch losses 2 and 4 average to 3, and a single batch
loss 3 averages to itself. -/
theorem phase_loss_is_arithmetic_mean_witness :
    ([2, 4] : List ℚ) ≠ [] ∧ epochAvgLoss [2, 4] [3] = (3, 3) :=
  ⟨by decide,
    (phase_loss_is_arithmetic_mean [2, 4] [3] (by decide) (by decide)).trans (by norm_num)⟩

/-- C8: the configured learning rate has no effect on `fit`. The Adam
constructor receives the hard-coded rate 1e-6, and two trainers built
from configurations that differ only in the lr entry produce runs that
agree on everything except the stored `lr` attribute itself
(two-run noninterference with respect to lr). -/
theorem fit_lr_noninterference {W : Type} (cfg : ConfigDict) (o : Option ℚ) (m : W)
    (valLoss : Nat → ℚ) :
    fitAdamLr (initTrainer { cfg with lrOpt := o } m) = fitAdamLr (initTrainer cfg m) ∧
    fitAdamLr (initTrainer cfg m) = 1 / 1000000 ∧
    fit (initTrainer { cfg with lrOpt := o } m) valLoss =
      ⟨(fit (initTrainer cfg m) valLoss).epochsRun,
        (fit (initTrainer cfg m) valLoss).stoppedEarly,
        ((fit (initTrainer cfg m) valLoss).final).setLr (o.getD LR)⟩ := by
  refine ⟨rfl, rfl, ?_⟩
  exact fit_setLr (initTrainer cfg m) (o.getD LR) valLoss

/-- C9: with patience 0 early stopping is also disabled, because the
counter is compared to `patience` only after being incremented to at
least 1: `_early_stopping` never returns `True` and `fit` runs one
iteration per epoch of the whole range. -/
theorem patience_zero_disables_early_stopping {W : Type} (t : Trainer W)
    (valLoss : Nat → ℚ) (hp : t.patience = 0) :
    (∀ l : ℚ, (earlyStopping t l).1 = false) ∧
    (fit t valLoss).stoppedEarly = false ∧
    (fit t valLoss).epochsRun = numEpochs t := by
  have hp0 : t.patience ≤ 0 := by omega
  refine ⟨fun l => earlyStopping_fst_of_patience_nonpos t l hp0, ?_, ?_⟩
  · rw [fit]
    exact (fitLoop_patience_nonpos _ _ hp0).1
  · rw [fit, (fitLoop_patience_nonpos _ _ hp0).2]
    simp

/-- Witness for C9: patience 0 and max-epochs 3 run all three epochs even
though no epoch after the first improves. -/
theorem patience_zero_disables_early_stopping_witness :
    (initTrainer ⟨some 3, some 0, none, none, none, none⟩ (0 : Nat)).patience = 0 ∧
    (fit (initTrainer ⟨some 3, some 0, none, none, none, none⟩ (0 : Nat))
      (fun _ => 5)).epochsRun = 3 :=
  ⟨by decide,
    ((patience_zero_disables_early_stopping _ (fun _ => 5) (by decide)).2.2).trans
      (by decide)⟩

/-- C10: configuration round-trip. `config()` on a freshly constructed
trainer returns, for each of the six keys, the value of the input dict
when the key is present and the module default when it is absent; in
particular a dict containing all six keys comes back unchanged, and the
empty dict comes back as the six module defaults. -/
theorem config_roundtrip :
    (∀ (W : Type) (m : W) (cfg : ConfigDict),
      Trainer.config (initTrainer cfg m) =
        ⟨cfg.maxEpochsOpt.getD MAX_EPOCHS, cfg.patienceOpt.getD PATIENCE,
          cfg.lrOpt.getD LR, cfg.maxLrOpt.getD MAX_LR,
          cfg.useSchedulerOpt.getD USE_SCHEDULER,
          cfg.saveBestModelOpt.getD SAVE_BEST_MODEL⟩) ∧
    (∀ (W : Type) (m : W) (a p : Int) (l mx : ℚ) (sb us : Bool),
      Trainer.config (initTrainer ⟨some a, some p, some l, some mx, some sb, some us⟩ m) =
        ⟨a, p, l, mx, us, sb⟩) ∧
    (∀ (W : Type) (m : W),
      Trainer.config (initTrainer ⟨none, none, none, none, none, none⟩ m) =
        ⟨MAX_EPOCHS, PATIENCE, LR, MAX_LR, USE_SCHEDULER, SAVE_BEST_MODEL⟩) :=
  ⟨fun _ _ _ => rfl, fun _ _ _ _ _ _ _ _ => rfl, fun _ _ => rfl⟩

end BaseTrainerModel
